import Mathlib

/-!
Shallow embedding of the `saferet` crate: `SecretString` (src/secret_string.rs)
and `SecretBytes` (src/secret_bytes.rs), two wrappers around owned byte
buffers.  A Rust `String` is an owned UTF-8 byte buffer (`Vec<u8>`), so both
wrappers are modelled over `List Nat` with the wellformedness condition that
every element is below 256.
-/

namespace Saferet

/-- Modelled from the spec: the constant-time equality helper (spec §4.3) is
supplied by the external `subtle` crate, which is not part of src/.  Per-byte
comparison `u8::ct_eq`: xor the bytes, fold the or of the xor and its wrapping
negation down to the high bit, and flip it, so the result is `1` exactly when
the bytes agree, computed without data-dependent branching.  Wrapping negation
of a `u8` value `d` is `(256 - d) % 256`. -/
def ctEqByte (x y : Nat) : Nat :=
  (((x ^^^ y) ||| ((256 - (x ^^^ y)) % 256)) >>> 7) ^^^ 1

/-- The accumulator loop of the slice-level `ct_eq`: bitwise-and of all
per-byte comparison results, visiting every pair unconditionally. -/
def ctEqLoop : List (Nat × Nat) → Nat → Nat
  | [], x => x
  | (a, b) :: rest, x => ctEqLoop rest (x &&& ctEqByte a b)

/-- Modelled from the spec: slice-level constant-time equality of the `subtle`
crate (spec §4.3), as consumed by both `PartialEq` impls.  Differing lengths
short-circuit to "not equal"; equal lengths run the accumulator loop over the
zipped sequences and convert the final 0-or-1 accumulator to a boolean. -/
def ctEq (a b : List Nat) : Bool :=
  if a.length ≠ b.length then false
  else decide (ctEqLoop (a.zip b) 1 ≠ 0)

/-- Number of per-byte comparison steps the accumulator loop performs. -/
def ctEqLoopSteps : List (Nat × Nat) → Nat
  | [] => 0
  | _ :: rest => ctEqLoopSteps rest + 1

/-- Comparison work of `ctEq`: zero byte comparisons on the length
short-circuit, otherwise one step per zipped pair. -/
def ctEqWork (a b : List Nat) : Nat :=
  if a.length ≠ b.length then 0 else ctEqLoopSteps (a.zip b)

/-- `pub struct SecretString(String);` (src/secret_string.rs line 48).  The
owned `String` is modelled as its byte buffer. -/
structure SecretString where
  val : List Nat

namespace SecretString

/-- All bytes of the buffer are valid `u8` values. -/
@[reducible] def Wf (s : SecretString) : Prop := ∀ x ∈ s.val, x < 256

/-- `SecretString::new(secret: impl Into<String>)` called with an owned
`String`: `Into<String>` for `String` is the identity. -/
def new (secret : List Nat) : SecretString := ⟨secret⟩

/-- `SecretString::new` called with a borrowed `&str`: `Into<String>` copies
the borrowed bytes into a fresh owned buffer with the same content. -/
def newBorrowed (secret : List Nat) : SecretString := ⟨secret⟩

/-- `SecretString::expose`: a read-only view of the internal buffer. -/
def expose (s : SecretString) : List Nat := s.val

/-- `impl fmt::Debug for SecretString`: writes the fixed literal. -/
def debugFmt (_ : SecretString) : String := "SecretString(***)"

/-- `impl fmt::Display for SecretString`: writes the fixed literal. -/
def displayFmt (_ : SecretString) : String := "***"

/-- `impl From<String> for SecretString`: delegates to `Self::new(s)`. -/
def fromOwned (s : List Nat) : SecretString := new s

/-- `impl From<&str> for SecretString`: delegates to `Self::new(s)`. -/
def fromBorrowed (s : List Nat) : SecretString := new s

/-- `impl AsRef<str> for SecretString`: delegates to `expose`. -/
def asRef (s : SecretString) : List Nat := s.expose

/-- `impl Default for SecretString`: `Self::new("")`. -/
def default : SecretString := new []

/-- `std::convert::Infallible`, the uninhabited error type of `FromStr`. -/
inductive Infallible : Type

/-- `impl FromStr for SecretString`: `Ok(Self::new(s))`. -/
def fromStr (s : List Nat) : Except Infallible SecretString :=
  Except.ok (new s)

/-- `derive(Clone)`: field-wise deep copy of the buffer. -/
def clone (s : SecretString) : SecretString := ⟨s.val⟩

/-- Modelled from the spec: `derive(Zeroize)` expands to `String::zeroize` of
the external `zeroize` crate, which is not part of src/.  It overwrites the
buffer with zero bytes and then clears it, so the observable length becomes
zero (spec §4.1; corroborated by the in-repo test test_secret_string_zeroize). -/
def zeroize (s : SecretString) : SecretString :=
  ⟨(s.val.map fun _ => 0).take 0⟩

/-- `impl PartialEq for SecretString` under the default `constant-time-eq`
feature: `self.0.as_bytes().ct_eq(other.0.as_bytes()).into()`. -/
def beq (a b : SecretString) : Bool := ctEq a.val b.val

end SecretString

/-- `pub struct SecretBytes(Vec<u8>);` (src/secret_bytes.rs line 47). -/
structure SecretBytes where
  val : List Nat

namespace SecretBytes

/-- All bytes of the buffer are valid `u8` values. -/
@[reducible] def Wf (s : SecretBytes) : Prop := ∀ x ∈ s.val, x < 256

/-- `SecretBytes::new(secret: impl Into<Vec<u8>>)` called with an owned
`Vec<u8>`: `Into<Vec<u8>>` for `Vec<u8>` is the identity. -/
def new (secret : List Nat) : SecretBytes := ⟨secret⟩

/-- `SecretBytes::new` called with a borrowed source: `Into<Vec<u8>>` copies
the borrowed bytes into a fresh owned buffer with the same content. -/
def newBorrowed (secret : List Nat) : SecretBytes := ⟨secret⟩

/-- `SecretBytes::expose`: a read-only view of the internal buffer. -/
def expose (s : SecretBytes) : List Nat := s.val

/-- `impl fmt::Debug for SecretBytes`: writes the fixed literal. -/
def debugFmt (_ : SecretBytes) : String := "SecretBytes(***)"

/-- `impl fmt::Display for SecretBytes`: writes the fixed literal. -/
def displayFmt (_ : SecretBytes) : String := "***"

/-- `impl From<Vec<u8>> for SecretBytes`: delegates to `Self::new(v)`. -/
def fromOwned (v : List Nat) : SecretBytes := new v

/-- `impl From<&[u8]> for SecretBytes`: `Self::new(s.to_vec())`, the copy of
the borrowed slice. -/
def fromBorrowed (s : List Nat) : SecretBytes := new s

/-- `impl AsRef<[u8]> for SecretBytes`: delegates to `expose`. -/
def asRef (s : SecretBytes) : List Nat := s.expose

/-- `impl Default for SecretBytes`: `Self::new(Vec::new())`. -/
def default : SecretBytes := new []

/-- `derive(Clone)`: field-wise deep copy of the buffer. -/
def clone (s : SecretBytes) : SecretBytes := ⟨s.val⟩

/-- Modelled from the spec: `derive(Zeroize)` expands to `Vec::<u8>::zeroize`
of the external `zeroize` crate, which is not part of src/.  It overwrites the
buffer with zero bytes and then clears it, so the observable length becomes
zero (spec §4.2; corroborated by the in-repo test test_secret_bytes_zeroize). -/
def zeroize (s : SecretBytes) : SecretBytes :=
  ⟨(s.val.map fun _ => 0).take 0⟩

/-- `impl PartialEq for SecretBytes` under the default `constant-time-eq`
feature: `self.0.ct_eq(&other.0).into()`. -/
def beq (a b : SecretBytes) : Bool := ctEq a.val b.val

end SecretBytes

/-- Zeroizing the first component of a two-secret state, as performed by
calling `zeroize()` on the first secret while the second is merely held. -/
def zeroizeFstS (p : SecretString × SecretString) : SecretString × SecretString :=
  (p.1.zeroize, p.2)

/-- Zeroizing the second component of a two-secret state. -/
def zeroizeSndS (p : SecretString × SecretString) : SecretString × SecretString :=
  (p.1, p.2.zeroize)

/-- Zeroizing the first component of a two-byte-secret state. -/
def zeroizeFstB (p : SecretBytes × SecretBytes) : SecretBytes × SecretBytes :=
  (p.1.zeroize, p.2)

/-- Zeroizing the second component of a two-byte-secret state. -/
def zeroizeSndB (p : SecretBytes × SecretBytes) : SecretBytes × SecretBytes :=
  (p.1, p.2.zeroize)

set_option maxRecDepth 8192 in
/-- The bit-trick at the heart of `u8::ct_eq`, checked over all byte values. -/
theorem ctEqByteAux :
    ∀ d < 256, ((((d ||| ((256 - d) % 256)) >>> 7) ^^^ 1) = 1 ↔ d = 0) ∧
      (d ≠ 0 → (((d ||| ((256 - d) % 256)) >>> 7) ^^^ 1) = 0) := by
  decide

theorem xor_lt_256 {x y : Nat} (hx : x < 256) (hy : y < 256) : x ^^^ y < 256 := by
  have : x ^^^ y < 2 ^ 8 := Nat.bitwise_lt (f := bne) hx hy
  simpa using this

theorem ctEqByte_eq_one_iff {x y : Nat} (hx : x < 256) (hy : y < 256) :
    ctEqByte x y = 1 ↔ x = y := by
  have hd : x ^^^ y < 256 := xor_lt_256 hx hy
  have h := (ctEqByteAux (x ^^^ y) hd).1
  unfold ctEqByte
  rw [h, Nat.xor_eq_zero]

theorem ctEqByte_of_ne {x y : Nat} (hx : x < 256) (hy : y < 256) (hne : x ≠ y) :
    ctEqByte x y = 0 := by
  have hd : x ^^^ y < 256 := xor_lt_256 hx hy
  have h := (ctEqByteAux (x ^^^ y) hd).2
  unfold ctEqByte
  exact h (fun hz => hne (Nat.xor_eq_zero.mp hz))

theorem ctEqLoop_zero (l : List (Nat × Nat)) : ctEqLoop l 0 = 0 := by
  induction l with
  | nil => rfl
  | cons p rest ih =>
    obtain ⟨a, b⟩ := p
    show ctEqLoop rest (0 &&& ctEqByte a b) = 0
    rw [Nat.zero_and]
    exact ih

theorem ctEqLoop_one_iff (l : List (Nat × Nat))
    (hl : ∀ p ∈ l, p.1 < 256 ∧ p.2 < 256) :
    (ctEqLoop l 1 ≠ 0) ↔ ∀ p ∈ l, p.1 = p.2 := by
  induction l with
  | nil => simp [ctEqLoop]
  | cons p rest ih =>
    obtain ⟨a, b⟩ := p
    have hab := hl (a, b) (List.mem_cons_self _ _)
    have hrest := fun q hq => hl q (List.mem_cons_of_mem _ hq)
    by_cases hab_eq : a = b
    · have h1 : ctEqByte a b = 1 := (ctEqByte_eq_one_iff hab.1 hab.2).mpr hab_eq
      have step : ctEqLoop ((a, b) :: rest) 1 = ctEqLoop rest 1 := by
        show ctEqLoop rest (1 &&& ctEqByte a b) = ctEqLoop rest 1
        have hone : (1 : Nat) &&& 1 = 1 := by decide
        rw [h1, hone]
      rw [step, ih hrest]
      simp [List.forall_mem_cons, hab_eq]
    · have h0 : ctEqByte a b = 0 := ctEqByte_of_ne hab.1 hab.2 hab_eq
      have step : ctEqLoop ((a, b) :: rest) 1 = 0 := by
        show ctEqLoop rest (1 &&& ctEqByte a b) = 0
        have hzero : (1 : Nat) &&& 0 = 0 := by decide
        rw [h0, hzero]
        exact ctEqLoop_zero rest
      rw [step]
      simp [List.forall_mem_cons, hab_eq]

theorem zip_forall_eq_iff {a b : List Nat} (h : a.length = b.length) :
    (∀ p ∈ a.zip b, p.1 = p.2) ↔ a = b := by
  induction a generalizing b with
  | nil =>
    cases b with
    | nil => simp
    | cons y ys => simp at h
  | cons x xs ih =>
    cases b with
    | nil => simp at h
    | cons y ys =>
      have hlen : xs.length = ys.length := by simpa using h
      constructor
      · intro hall
        have hxy : x = y := hall (x, y) (by simp [List.zip_cons_cons])
        have hxs : xs = ys := (ih hlen).mp (fun p hp =>
          hall p (by simp [List.zip_cons_cons, hp]))
        simp [hxy, hxs]
      · intro heq
        rw [List.cons.injEq] at heq
        obtain ⟨rfl, rfl⟩ := heq
        intro p hp
        simp only [List.zip_cons_cons, List.mem_cons] at hp
        rcases hp with rfl | hp
        · rfl
        · exact (ih rfl).mpr rfl p hp

theorem ctEq_iff {a b : List Nat} (ha : ∀ x ∈ a, x < 256) (hb : ∀ x ∈ b, x < 256) :
    ctEq a b = true ↔ a = b := by
  unfold ctEq
  by_cases hlen : a.length = b.length
  · have hwf : ∀ p ∈ a.zip b, p.1 < 256 ∧ p.2 < 256 := by
      intro p hp
      exact ⟨ha _ (List.of_mem_zip hp).1, hb _ (List.of_mem_zip hp).2⟩
    simp only [hlen, ne_eq, not_true_eq_false, if_false, decide_eq_true_eq]
    exact (ctEqLoop_one_iff _ hwf).trans (zip_forall_eq_iff hlen)
  · simp only [ne_eq, hlen, not_false_eq_true, if_true]
    constructor
    · intro hfalse
      exact absurd hfalse (by simp)
    · intro heq
      exact absurd (congrArg List.length heq) hlen

theorem ctEq_length_ne {a b : List Nat} (h : a.length ≠ b.length) :
    ctEq a b = false := by
  simp [ctEq, h]

theorem ctEqLoopSteps_eq_length (l : List (Nat × Nat)) :
    ctEqLoopSteps l = l.length := by
  induction l with
  | nil => rfl
  | cons p rest ih => simp [ctEqLoopSteps, ih]

theorem ctEqWork_eq_length {a b : List Nat} (h : a.length = b.length) :
    ctEqWork a b = a.length := by
  simp [ctEqWork, h, ctEqLoopSteps_eq_length, List.length_zip]

/-- C1: for every pair of secrets of the same type (`SecretString` or
`SecretBytes`), the equality operator returns true if and only if their
exposed contents are byte-identical; in particular, any pair whose exposed
contents have differing lengths compares not-equal. -/
theorem eq_iff_expose_eq (sa sb : SecretString) (ha : sa.Wf) (hb : sb.Wf)
    (ba bb : SecretBytes) (hc : ba.Wf) (hd : bb.Wf) :
    (SecretString.beq sa sb = true ↔ sa.expose = sb.expose) ∧
    (sa.expose.length ≠ sb.expose.length → SecretString.beq sa sb = false) ∧
    (SecretBytes.beq ba bb = true ↔ ba.expose = bb.expose) ∧
    (ba.expose.length ≠ bb.expose.length → SecretBytes.beq ba bb = false) :=
  ⟨ctEq_iff ha hb, fun h => ctEq_length_ne h,
   ctEq_iff hc hd, fun h => ctEq_length_ne h⟩

/-- Witness for C1 at concrete inputs. -/
theorem eq_iff_expose_eq_witness :
    (SecretString.beq (SecretString.new [1, 2]) (SecretString.new [1, 2]) = true ↔
      (SecretString.new [1, 2]).expose = (SecretString.new [1, 2]).expose) ∧
    ((SecretString.new [1, 2]).expose.length ≠ (SecretString.new [1, 2]).expose.length →
      SecretString.beq (SecretString.new [1, 2]) (SecretString.new [1, 2]) = false) ∧
    (SecretBytes.beq (SecretBytes.new [3]) (SecretBytes.new [4, 5]) = true ↔
      (SecretBytes.new [3]).expose = (SecretBytes.new [4, 5]).expose) ∧
    ((SecretBytes.new [3]).expose.length ≠ (SecretBytes.new [4, 5]).expose.length →
      SecretBytes.beq (SecretBytes.new [3]) (SecretBytes.new [4, 5]) = false) :=
  eq_iff_expose_eq (SecretString.new [1, 2]) (SecretString.new [1, 2])
    (by decide) (by decide)
    (SecretBytes.new [3]) (SecretBytes.new [4, 5]) (by decide) (by decide)

/-- C2 counterexample: the Debug rendering of a text secret constructed from
the bytes of "sk" is the literal "SecretString(***)", not "SecretText(***)"
as the claim states. -/
theorem debugFmt_not_secret_text :
    SecretString.debugFmt (SecretString.new [115, 107]) ≠ "SecretText(***)" := by
  decide

/-- C2 (amended): for every text secret regardless of content, Debug
rendering produces exactly `SecretString(***)`; for every byte secret,
exactly `SecretBytes(***)`. -/
theorem debugFmt_fixed (s : SecretString) (b : SecretBytes) :
    s.debugFmt = "SecretString(***)" ∧ b.debugFmt = "SecretBytes(***)" :=
  ⟨rfl, rfl⟩

/-- C3: constructing a secret with `new(V)` and then calling `expose()`
returns exactly V, for both the owned and the borrowed construction paths of
both types. -/
theorem new_expose_roundtrip (v w : List Nat) :
    (SecretString.new v).expose = v ∧ (SecretString.newBorrowed v).expose = v ∧
    (SecretBytes.new w).expose = w ∧ (SecretBytes.newBorrowed w).expose = w :=
  ⟨rfl, rfl, rfl, rfl⟩

/-- C4: for every secret constructed from a non-empty value, explicit
zeroization makes a subsequent `expose()` return the empty value, and the
observable length after zeroization is zero. -/
theorem zeroize_nonempty (v w : List Nat) (hv : v ≠ []) (hw : w ≠ []) :
    ((SecretString.new v).zeroize).expose = [] ∧
    ((SecretString.new v).zeroize).expose.length = 0 ∧
    ((SecretBytes.new w).zeroize).expose = [] ∧
    ((SecretBytes.new w).zeroize).expose.length = 0 :=
  ⟨rfl, rfl, rfl, rfl⟩

/-- Witness for C4 at concrete non-empty inputs. -/
theorem zeroize_nonempty_witness :
    ((SecretString.new [7]).zeroize).expose = [] ∧
    ((SecretString.new [7]).zeroize).expose.length = 0 ∧
    ((SecretBytes.new [8, 9]).zeroize).expose = [] ∧
    ((SecretBytes.new [8, 9]).zeroize).expose.length = 0 :=
  zeroize_nonempty [7] [8, 9] (by decide) (by decide)

/-- C5: for every secret of either type, regardless of content, Display
rendering produces exactly the fixed literal `***`. -/
theorem displayFmt_fixed (s : SecretString) (b : SecretBytes) :
    s.displayFmt = "***" ∧ b.displayFmt = "***" :=
  ⟨rfl, rfl⟩

/-- C6: for every input string, parse-from-string construction of the text
secret always succeeds with the same result as `new`, and its error type is
uninhabited, so no error value can ever be returned. -/
theorem fromStr_infallible :
    (∀ s : List Nat, SecretString.fromStr s = Except.ok (SecretString.new s)) ∧
    (∀ e : SecretString.Infallible, False) :=
  ⟨fun _ => rfl, fun e => nomatch e⟩

/-- C7: the conversion-from-owned and conversion-from-borrowed paths each
produce a secret whose `expose()` result equals that of direct `new`
construction with the same input, for both types. -/
theorem from_expose_eq_new (v w : List Nat) :
    (SecretString.fromOwned v).expose = (SecretString.new v).expose ∧
    (SecretString.fromBorrowed v).expose = (SecretString.new v).expose ∧
    (SecretBytes.fromOwned w).expose = (SecretBytes.new w).expose ∧
    (SecretBytes.fromBorrowed w).expose = (SecretBytes.new w).expose :=
  ⟨rfl, rfl, rfl, rfl⟩

/-- C8: cloning yields an instance whose `expose()` equals the original's,
and in a two-secret state of original and clone, zeroizing either component
empties it while leaving the other component's exposed content unchanged. -/
theorem clone_independent (s : SecretString) (b : SecretBytes) :
    (s.clone.expose = s.expose ∧
      (zeroizeSndS (s, s.clone)).1.expose = s.expose ∧
      (zeroizeSndS (s, s.clone)).2.expose = [] ∧
      (zeroizeFstS (s, s.clone)).2.expose = s.expose ∧
      (zeroizeFstS (s, s.clone)).1.expose = []) ∧
    (b.clone.expose = b.expose ∧
      (zeroizeSndB (b, b.clone)).1.expose = b.expose ∧
      (zeroizeSndB (b, b.clone)).2.expose = [] ∧
      (zeroizeFstB (b, b.clone)).2.expose = b.expose ∧
      (zeroizeFstB (b, b.clone)).1.expose = []) :=
  ⟨⟨rfl, rfl, rfl, rfl, rfl⟩, ⟨rfl, rfl, rfl, rfl, rfl⟩⟩

/-- C9: the shared equality primitive performs comparison work equal to the
canonical (common) length of the two sequences regardless of their contents,
so the work does not depend on the position of the first differing byte: any
two input pairs of the same lengths cost the same number of byte-comparison
steps. -/
theorem ctEq_work_constant (a b : List Nat) (h : a.length = b.length) :
    ctEqWork a b = a.length ∧
    (∀ c d : List Nat, c.length = a.length → d.length = b.length →
      ctEqWork c d = ctEqWork a b) := by
  refine ⟨ctEqWork_eq_length h, ?_⟩
  intro c d hch hdh
  have h2 : c.length = d.length := by rw [hch, hdh]; exact h
  rw [ctEqWork_eq_length h, ctEqWork_eq_length h2, hch]

/-- Witness for C9 at concrete same-length inputs. -/
theorem ctEq_work_constant_witness :
    ctEqWork [1, 2, 3] [9, 9, 9] = List.length [1, 2, 3] ∧
    (∀ c d : List Nat, c.length = List.length [1, 2, 3] →
      d.length = List.length [9, 9, 9] →
      ctEqWork c d = ctEqWork [1, 2, 3] [9, 9, 9]) :=
  ctEq_work_constant [1, 2, 3] [9, 9, 9] rfl

/-- C10: explicit zeroization is idempotent on the observable state: a second
`zeroize`, including on an already-empty secret such as `default()`, leaves
`expose()` equal to the empty value. -/
theorem zeroize_idempotent (s : SecretString) (b : SecretBytes) :
    s.zeroize.zeroize.expose = [] ∧ s.zeroize.zeroize = s.zeroize ∧
    SecretString.default.zeroize.expose = [] ∧
    b.zeroize.zeroize.expose = [] ∧ b.zeroize.zeroize = b.zeroize ∧
    SecretBytes.default.zeroize.expose = [] :=
  ⟨rfl, rfl, rfl, rfl, rfl, rfl⟩

end Saferet
